import Mathlib

/-!
Verification of the ntfy-worker repository (two Cloudflare-worker variants:
`src/worker.js`, the Discord variant, and the ntfy variant in the unnamed
source file).  JavaScript strings are modelled at the character level as
`List Char`; string lengths and `substring(0, n)` become `List.length` and
`List.take n`.  The float comparison `trimmed.length < text.length * 0.4`
is modelled exactly over the naturals as `5 * trimmed.length < 2 * text.length`
(for every length representable as a JS string, `n * 0.4` in IEEE double
rounds to the exact rational `2n/5` whenever that is an integer, and is
otherwise within far less than the distance to the nearest integer, so the
two comparisons agree).
-/

abbrev Str := List Char

/-! ## Backoff retrier (`retryWithBackoff`, worker.js lines 4-17)

The operation `fn` is modelled as an oracle `op : Nat → Except E A` giving
the outcome of its i-th invocation (JS: each `await fn()` either resolves
with a value or rejects with an error).  The model is instrumented with the
observable trace: the number of invocations performed and the list of
backoff delays (`baseDelay * 2 ^ attempt`) passed to `setTimeout` between
attempts.  The `Option A` in the result models the JS loop falling through
(returning `undefined`) when `maxRetries = 0`. -/
def retryRun {E A : Type} (op : Nat → Except E A) (base attempt fuel : Nat) :
    Except E (Option A) × Nat × List Nat :=
  match fuel with
  | 0 => (Except.ok none, 0, [])
  | f + 1 =>
    match op attempt with
    | Except.ok a => (Except.ok (some a), 1, [])
    | Except.error err =>
      -- isLastAttempt = (attempt === maxRetries - 1), i.e. no fuel remains
      if f = 0 then (Except.error err, 1, [])
      else
        let r := retryRun op base (attempt + 1) f
        (r.1, r.2.1 + 1, base * 2 ^ attempt :: r.2.2)

/-- Model of `retryWithBackoff(fn, maxRetries = 3, baseDelay = 1000)`:
result, invocation count, and recorded inter-attempt delays. -/
def retryWithBackoff {E A : Type} (op : Nat → Except E A)
    (maxRetries baseDelay : Nat) : Except E (Option A) × Nat × List Nat :=
  retryRun op baseDelay 0 maxRetries

/-! ## Content preprocessor (`trimVerboseContent`, worker.js lines 50-89)

The seven regex replacements are modelled concretely.  Each labelled
pattern `/LABEL:[\s\S]*?(?=\n[A-Z][a-z]|\n\n|$)/gi` matches the label
case-insensitively and then extends lazily to the first position where the
lookahead holds (`$` holds at the end of input, so a match end always
exists).  The hex pattern `/[a-f0-9]{32,}/gi` removes every maximal run of
≥ 32 hex digits.  `/\n{3,}/g` collapses runs of ≥ 3 newlines to two, and
`trim()` strips surrounding whitespace. -/

def isHexChar (c : Char) : Bool :=
  (('a' ≤ c) && (c ≤ 'f')) || (('A' ≤ c) && (c ≤ 'F')) || (('0' ≤ c) && (c ≤ '9'))

/-- Lookahead `(?=\n[A-Z][a-z]|\n\n|$)` of the five labelled email-header
patterns, tested at the start of the remaining input.  The patterns carry
the `i` flag, which applies to the lookahead's classes too: under
canonicalized class matching both `[A-Z]` and `[a-z]` match any ASCII
letter of either case. -/
def look1 : Str → Bool
  | [] => true
  | '\n' :: '\n' :: _ => true
  | '\n' :: c1 :: c2 :: _ => c1.isAlpha && c2.isAlpha
  | _ => false

/-- Lookahead `(?=\n\n[A-Z]|$)` of the `View Full Email Headers` pattern.
As in `look1`, the `i` flag makes `[A-Z]` match any ASCII letter. -/
def look2 : Str → Bool
  | [] => true
  | '\n' :: '\n' :: c :: _ => c.isAlpha
  | _ => false

/-- Number of characters consumed by the lazy `[\s\S]*?`: the distance to
the first position where the lookahead holds (the lookaheads hold at the
end of input, matching the regex alternative `$`). -/
def lazyEnd (look : Str → Bool) : Str → Nat
  | [] => 0
  | c :: t => if look (c :: t) then 0 else 1 + lazyEnd look t

/-- Case-insensitive test that `s` starts with the (lowercase) label. -/
def ciHasLabel (label s : Str) : Bool :=
  (s.take label.length).map Char.toLower == label

/-- One global labelled replacement: scan left to right; at the first
position where one of the alternative labels matches, delete the label and
the lazily-matched tail, and continue after the deleted text.  Fuel equals
the input length (every step consumes at least one character). -/
def replacePatternAux (labels : List Str) (look : Str → Bool) :
    Nat → Str → Str
  | 0, s => s
  | _ + 1, [] => []
  | f + 1, c :: t =>
    match (labels.filter (fun L => ciHasLabel L (c :: t))).head? with
    | some L =>
      let k := lazyEnd look ((c :: t).drop L.length)
      replacePatternAux labels look f ((c :: t).drop (L.length + k))
    | none => c :: replacePatternAux labels look f t

def replacePattern (labels : List Str) (look : Str → Bool) (s : Str) : Str :=
  replacePatternAux labels look s.length s

/-- Global replacement of `/[a-f0-9]{32,}/gi`: every maximal run of at
least 32 hex digits is removed (the greedy quantifier consumes a whole
run from its first character). -/
def removeHexAux : Nat → Str → Str
  | 0, s => s
  | _ + 1, [] => []
  | f + 1, c :: t =>
    if isHexChar c then
      let run := (c :: t).takeWhile isHexChar
      let rest := (c :: t).dropWhile isHexChar
      if 32 ≤ run.length then removeHexAux f rest
      else run ++ removeHexAux f rest
    else c :: removeHexAux f t

def removeHexRuns (s : Str) : Str := removeHexAux s.length s

/-- Global replacement of `/\n{3,}/g` by two newlines. -/
def collapseAux : Nat → Str → Str
  | 0, s => s
  | _ + 1, [] => []
  | f + 1, c :: t =>
    if c = '\n' then
      let run := (c :: t).takeWhile (fun x => x = '\n')
      let rest := (c :: t).dropWhile (fun x => x = '\n')
      if 3 ≤ run.length then '\n' :: '\n' :: collapseAux f rest
      else run ++ collapseAux f rest
    else c :: collapseAux f t

def collapseNewlines (s : Str) : Str := collapseAux s.length s

/-- The set stripped by JS `String.prototype.trim`: WhiteSpace ∪
LineTerminator, i.e. TAB, LF, VT, FF, CR, SP, NBSP, the Unicode
space-separator category, LS, PS and ZWNBSP (U+FEFF). -/
def isJsWhitespace (c : Char) : Bool :=
  (c.toNat = 9) || (c.toNat = 10) || (c.toNat = 11) || (c.toNat = 12) ||
  (c.toNat = 13) || (c.toNat = 32) || (c.toNat = 160) || (c.toNat = 0x1680) ||
  ((0x2000 ≤ c.toNat) && (c.toNat ≤ 0x200A)) ||
  (c.toNat = 0x2028) || (c.toNat = 0x2029) || (c.toNat = 0x202F) ||
  (c.toNat = 0x205F) || (c.toNat = 0x3000) || (c.toNat = 0xFEFF)

/-- JS `String.prototype.trim`: strip whitespace from both ends. -/
def jsTrim (s : Str) : Str :=
  ((s.dropWhile isJsWhitespace).reverse.dropWhile isJsWhitespace).reverse

def spfLabel : Str := "spf result:".toList
def dkimLabel : Str := "dkim result:".toList
def dmarcLabels : List Str :=
  ["dmarc result:".toList, "dmarc policy:".toList, "dmarc info:".toList]
def bimiLabel : Str := "bimi location:".toList
def msgIdLabel : Str := "message id:".toList
def viewLabel : Str := "view full email headers".toList

/-- The seven `verbosePatterns` replacements, applied in source order. -/
def applyVerbosePatterns (s : Str) : Str :=
  removeHexRuns
    (replacePattern [viewLabel] look2
      (replacePattern [msgIdLabel] look1
        (replacePattern [bimiLabel] look1
          (replacePattern dmarcLabels look1
            (replacePattern [dkimLabel] look1
              (replacePattern [spfLabel] look1 s))))))

/-- The candidate result computed inside the try block before the length
guard: pattern removal, newline collapsing, then `trim()`. -/
def trimmedCandidate (text : Str) : Str :=
  jsTrim (collapseNewlines (applyVerbosePatterns text))

/-- Body of the `try` block of `trimVerboseContent` (worker.js lines
51-84).  Every step is total in JS, so the body always returns `ok`;
the `Except` records where a hypothetical internal failure would be
caught. -/
def trimTry (text : Str) : Except Unit Str :=
  Except.ok
    (let trimmed := trimmedCandidate text
     if 5 * trimmed.length < 2 * text.length then text
     else if 0 < trimmed.length then trimmed else text)

/-- The `try`/`catch` wrapper of `trimVerboseContent`: any failure raised
by the body is caught and the original text returned (worker.js lines
85-88). -/
def trimVerboseContentWith (body : Str → Except Unit Str) (text : Str) : Str :=
  match body text with
  | Except.ok r => r
  | Except.error _ => text

def trimVerboseContent (text : Str) : Str :=
  trimVerboseContentWith trimTry text

/-! ## Notification formatters (worker.js lines 97-187; ntfy variant lines
89-162)

The network is abstracted by an oracle mapping each model identifier to
the observable outcome of that model's whole attempt (the code queries
each model at most once).  The failure constructors enumerate the
`continue` paths of the loop body: the retried fetch rejecting
(`retryFailed`), `resp.ok` false after the retrier returned (`respNotOk`),
missing/empty assistant content (`noContent`), and `JSON.parse` throwing
(`parseFailed`).  A parsed draft is modelled by the fields the program
reads or writes; the embed's optional `fields` array is not modelled since
no claim concerns it.  Both formatters are total functions: they can never
raise. -/

inductive AttemptOutcome (α : Type) where
  | retryFailed : AttemptOutcome α
  | respNotOk : AttemptOutcome α
  | noContent : AttemptOutcome α
  | parseFailed : AttemptOutcome α
  | success : α → AttemptOutcome α
deriving DecidableEq

def AttemptOutcome.isSuccess {α : Type} : AttemptOutcome α → Bool
  | .success _ => true
  | _ => false

/-- The fixed ordered model list (identical in both variants). -/
def models : List String :=
  ["z-ai/glm-4.5-air:free", "arcee-ai/trinity-mini:free"]

/-- The `for (const model of models)` loop: returns the first successful
draft (or `none`) together with the list of models actually invoked. -/
def runModels {α : Type} (oracle : String → AttemptOutcome α) :
    List String → Option α × List String
  | [] => (none, [])
  | m :: rest =>
    match oracle m with
    | .success d => (some d, [m])
    | _ =>
      let r := runModels oracle rest
      (r.1, m :: r.2)

/-- Variant A draft (Discord rich embed).  `timestamp` is `none` when the
parsed JSON carried no timestamp field; the current time is modelled as a
natural number. -/
structure DiscordEmbed where
  title : Str
  description : Str
  color : Nat
  footerText : Str
  timestamp : Option Nat
deriving DecidableEq

/-- The variant A fallback structure (worker.js lines 104-110). -/
def discordFallback (now : Nat) (text : Str) : DiscordEmbed :=
  { title := "🔔 Notification".toList
    description := text.take 2000
    color := 9807270
    footerText := "Processed via Worker (Fallback)".toList
    timestamp := some now }

/-- `getDiscordEmbed` together with the list of models invoked.  On a
successful parse the timestamp is stamped client-side (worker.js line
178), overwriting whatever the model supplied. -/
def getDiscordEmbedCalls (now : Nat) (text : Str)
    (oracle : String → AttemptOutcome DiscordEmbed) :
    DiscordEmbed × List String :=
  let r := runModels oracle models
  (match r.1 with
   | some d => { d with timestamp := some now }
   | none => discordFallback now text, r.2)

def getDiscordEmbed (now : Nat) (text : Str)
    (oracle : String → AttemptOutcome DiscordEmbed) : DiscordEmbed :=
  (getDiscordEmbedCalls now text oracle).1

/-- A JS value read off a parsed draft's property: a string, `null`, or
absent (`undefined`). -/
inductive JsStr where
  | undef : JsStr
  | null : JsStr
  | str : Str → JsStr
deriving DecidableEq

/-- JS truthiness test for such a value (falsy: `undefined`, `null`, `""`). -/
def jsFalsy : JsStr → Bool
  | .undef => true
  | .null => true
  | .str s => s.isEmpty

/-- JS `a || b` specialised to a draft property on the left and a string
default on the right. -/
def jsOr (a : JsStr) (b : Str) : Str :=
  match a with
  | .str s => if s.isEmpty then b else s
  | _ => b

/-- Variant B draft (ntfy notification). -/
structure NtfyNotification where
  title : JsStr
  message : JsStr
  priority : JsStr
  tags : JsStr
deriving DecidableEq

/-- The variant B fallback structure (ntfy variant lines 96-101). -/
def ntfyFallback (text : Str) : NtfyNotification :=
  { title := .str "Notification".toList
    message := .str (text.take 4096)
    priority := .str "default".toList
    tags := .str "bell".toList }

/-- `getNtfyNotification` together with the list of models invoked.  The
parsed draft is returned as-is (no timestamp stamping in variant B). -/
def getNtfyNotificationCalls (text : Str)
    (oracle : String → AttemptOutcome NtfyNotification) :
    NtfyNotification × List String :=
  let r := runModels oracle models
  (r.1.getD (ntfyFallback text), r.2)

def getNtfyNotification (text : Str)
    (oracle : String → AttemptOutcome NtfyNotification) : NtfyNotification :=
  (getNtfyNotificationCalls text oracle).1

/-! ## Delivery and response mapping (worker.js lines 204-231; ntfy
variant lines 169-197)

The sink is an oracle from the attempt index to its HTTP response.  A
non-2xx response (`ok = false`) makes the delivery operation throw
`"<sink> failed: <status> - <body>"`; the retried call's rejection is
caught and mapped to an HTTP 500 response whose body embeds the error
message, while any resolution maps to the fixed 200 confirmation. -/

structure SinkResp where
  ok : Bool
  status : Nat
  body : Str
deriving DecidableEq

structure HttpResp where
  status : Nat
  body : Str
deriving DecidableEq

def discordFailMsg (r : SinkResp) : Str :=
  "Discord webhook failed: ".toList ++ ((Nat.repr r.status).toList ++ (" - ".toList ++ r.body))

/-- One delivery attempt to the Discord webhook (worker.js lines 205-221). -/
def discordDeliverOp (sink : Nat → SinkResp) (i : Nat) : Except Str SinkResp :=
  if (sink i).ok then Except.ok (sink i) else Except.error (discordFailMsg (sink i))

/-- The `.catch` + `instanceof Response` mapping of the Discord delivery
(worker.js lines 222-231). -/
def discordDeliveryResponse (sink : Nat → SinkResp) : HttpResp :=
  match (retryWithBackoff (discordDeliverOp sink) 3 1000).1 with
  | Except.error msg => { status := 500, body := "Discord error: ".toList ++ msg }
  | Except.ok _ => { status := 200, body := "Sent to Discord!".toList }

def ntfyFailMsg (r : SinkResp) : Str :=
  "ntfy failed: ".toList ++ ((Nat.repr r.status).toList ++ (" - ".toList ++ r.body))

/-- One delivery attempt to the ntfy topic (ntfy variant lines 170-187). -/
def ntfyDeliverOp (sink : Nat → SinkResp) (i : Nat) : Except Str SinkResp :=
  if (sink i).ok then Except.ok (sink i) else Except.error (ntfyFailMsg (sink i))

/-- The `.catch` + `instanceof Response` mapping of the ntfy delivery
(ntfy variant lines 188-197). -/
def ntfyDeliveryResponse (sink : Nat → SinkResp) : HttpResp :=
  match (retryWithBackoff (ntfyDeliverOp sink) 3 1000).1 with
  | Except.error msg => { status := 500, body := "ntfy error: ".toList ++ msg }
  | Except.ok _ => { status := 200, body := "Sent to ntfy!".toList }

/-- Body of the POST to the ntfy topic (ntfy variant line 178):
`notification.message || processedPayload.substring(0, 4096)`. -/
def ntfyRequestBody (n : NtfyNotification) (processedPayload : Str) : Str :=
  jsOr n.message (processedPayload.take 4096)

/-! ## Helper lemmas -/

/-- If the operation fails on the first `k` attempts (numbered from `s`)
and succeeds on attempt `s + k`, with fuel for more than `k` further
attempts, the retrier stops at the success: `k + 1` invocations with the
recorded delays `base * 2 ^ (s + i)` for `i < k`. -/
theorem retryRun_succ_after {E A : Type} (op : Nat → Except E A) (base : Nat) (a : A) :
    ∀ (k : Nat) (e : Nat → E) (s fuel : Nat),
      (∀ i, i < k → op (s + i) = Except.error (e i)) →
      op (s + k) = Except.ok a → k < fuel →
      retryRun op base s fuel =
        (Except.ok (some a), k + 1, (List.range k).map (fun i => base * 2 ^ (s + i))) := by
  intro k
  induction k with
  | zero =>
    intro e s fuel hf hs hk
    cases fuel with
    | zero => omega
    | succ f =>
      have hs0 : op s = Except.ok a := by simpa using hs
      simp [retryRun, hs0]
  | succ k ih =>
    intro e s fuel hf hs hk
    cases fuel with
    | zero => omega
    | succ f =>
      have h0 : op s = Except.error (e 0) := by simpa using hf 0 (Nat.succ_pos k)
      have hf1 : ¬ f = 0 := by omega
      have hf2 : ∀ i, i < k → op (s + 1 + i) = Except.error (e (i + 1)) := by
        intro i hi
        have := hf (i + 1) (by omega)
        rwa [show s + (i + 1) = s + 1 + i by omega] at this
      have hs2 : op (s + 1 + k) = Except.ok a := by
        rwa [show s + (k + 1) = s + 1 + k by omega] at hs
      have ihr := ih (fun i => e (i + 1)) (s + 1) f hf2 hs2 (by omega)
      have hfun : (fun i => base * 2 ^ (s + 1 + i)) =
          (fun i => base * 2 ^ (s + i)) ∘ Nat.succ := by
        funext i
        have hi : s + 1 + i = s + (i + 1) := by omega
        simp [Function.comp, hi]
      have hlist : (List.range (k + 1)).map (fun i => base * 2 ^ (s + i)) =
          base * 2 ^ s :: (List.range k).map (fun i => base * 2 ^ (s + 1 + i)) := by
        rw [List.range_succ_eq_map, List.map_cons, List.map_map, hfun]
        simp
      simp only [retryRun, h0, if_neg hf1, ihr, hlist]

/-- If the operation fails on every attempt the fuel allows, the retrier
performs exactly `fuel` invocations and re-raises the last failure. -/
theorem retryRun_all_fail {E A : Type} (op : Nat → Except E A) (base : Nat) :
    ∀ (fuel : Nat) (e : Nat → E) (s : Nat),
      (∀ i, i < fuel → op (s + i) = Except.error (e i)) → 1 ≤ fuel →
      (retryRun op base s fuel).1 = Except.error (e (fuel - 1)) ∧
      (retryRun op base s fuel).2.1 = fuel := by
  intro fuel
  induction fuel with
  | zero => intro e s _ h1; omega
  | succ f ih =>
    intro e s hf _
    have h0 : op s = Except.error (e 0) := by simpa using hf 0 (Nat.succ_pos f)
    cases Nat.eq_zero_or_pos f with
    | inl hz =>
      subst hz
      simp [retryRun, h0]
    | inr hpos =>
      have hf1 : ¬ f = 0 := by omega
      have hf2 : ∀ i, i < f → op (s + 1 + i) = Except.error (e (i + 1)) := by
        intro i hi
        have := hf (i + 1) (by omega)
        rwa [show s + (i + 1) = s + 1 + i by omega] at this
      have ihr := ih (fun i => e (i + 1)) (s + 1) hf2 hpos
      simp only [retryRun, h0, if_neg hf1]
      refine ⟨?_, ?_⟩
      · rw [ihr.1]
        refine congrArg _ (congrArg _ ?_)
        omega
      · rw [ihr.2]

/-- If no model in the list succeeds, the loop returns no draft and
invokes every model in order. -/
theorem runModels_all_fail {α : Type} (oracle : String → AttemptOutcome α) :
    ∀ ms : List String, (∀ m ∈ ms, (oracle m).isSuccess = false) →
      runModels oracle ms = (none, ms) := by
  intro ms
  induction ms with
  | nil => intro _; rfl
  | cons m rest ih =>
    intro h
    have hm := h m (List.mem_cons_self m rest)
    have hrest : ∀ x ∈ rest, (oracle x).isSuccess = false := by
      intro x hx
      exact h x (List.mem_cons_of_mem m hx)
    cases hq : oracle m with
    | success d => rw [hq] at hm; simp [AttemptOutcome.isSuccess] at hm
    | retryFailed => simp [runModels, hq, ih hrest]
    | respNotOk => simp [runModels, hq, ih hrest]
    | noContent => simp [runModels, hq, ih hrest]
    | parseFailed => simp [runModels, hq, ih hrest]

/-- If every model before `m` fails and `m` succeeds with draft `d`, the
loop returns `d` having invoked exactly the models up to and including
`m`; the models after `m` are never invoked. -/
theorem runModels_first_success {α : Type} (oracle : String → AttemptOutcome α)
    (m : String) (d : α) (hm : oracle m = .success d) :
    ∀ (pre post : List String), (∀ x ∈ pre, (oracle x).isSuccess = false) →
      runModels oracle (pre ++ m :: post) = (some d, pre ++ [m]) := by
  intro pre
  induction pre with
  | nil =>
    intro post _
    simp [runModels, hm]
  | cons x xs ih =>
    intro post h
    have hx := h x (List.mem_cons_self x xs)
    have hxs : ∀ y ∈ xs, (oracle y).isSuccess = false := by
      intro y hy
      exact h y (List.mem_cons_of_mem x hy)
    cases hq : oracle x with
    | success dd => rw [hq] at hx; simp [AttemptOutcome.isSuccess] at hx
    | retryFailed => simp [runModels, hq, ih post hxs]
    | respNotOk => simp [runModels, hq, ih post hxs]
    | noContent => simp [runModels, hq, ih post hxs]
    | parseFailed => simp [runModels, hq, ih post hxs]

/-! ## Claim theorems -/

/-- C2: if the operation fails on exactly the first `k` attempts with
`k < maxRetries` and then succeeds, `retryWithBackoff` invokes it exactly
`k + 1` times, returns the successful attempt's result, and the recorded
inter-attempt delays are `baseDelay * 2 ^ i` for `i = 0, …, k - 1`
(i.e. `baseDelay, 2·baseDelay, 4·baseDelay, …`). -/
theorem spec_c2 {E A : Type} (op : Nat → Except E A) (maxRetries baseDelay k : Nat)
    (e : Nat → E) (a : A)
    (hf : ∀ i, i < k → op i = Except.error (e i))
    (hs : op k = Except.ok a) (hk : k < maxRetries) :
    retryWithBackoff op maxRetries baseDelay =
      (Except.ok (some a), k + 1, (List.range k).map (fun i => baseDelay * 2 ^ i)) := by
  have h := retryRun_succ_after op baseDelay a k e 0 maxRetries
      (by intro i hi; simpa using hf i hi) (by simpa using hs) hk
  simpa [retryWithBackoff] using h

/-- Witness for C2: one failure then a success, with `maxRetries = 3`,
`baseDelay = 1000`: two invocations and a single 1000 ms delay. -/
theorem spec_c2_witness :
    retryWithBackoff
        (fun i => if i = 0 then (Except.error "boom" : Except String Nat) else Except.ok 42)
        3 1000 =
      (Except.ok (some 42), 2, [1000]) := by
  have hf : ∀ i, i < 1 →
      (fun i => if i = 0 then (Except.error "boom" : Except String Nat) else Except.ok 42) i =
        Except.error ((fun _ => "boom") i) := by
    intro i hi
    have hi0 : i = 0 := by omega
    subst hi0
    rfl
  have h := spec_c2
      (fun i => if i = 0 then (Except.error "boom" : Except String Nat) else Except.ok 42)
      3 1000 1 (fun _ => "boom") 42 hf rfl (by omega)
  simpa [List.range_succ] using h

/-- C3: if the operation fails on every attempt, `retryWithBackoff`
invokes it exactly `maxRetries` times (never more) and re-raises the final
attempt's failure to the caller. -/
theorem spec_c3 {E A : Type} (op : Nat → Except E A) (maxRetries baseDelay : Nat)
    (e : Nat → E)
    (hf : ∀ i, i < maxRetries → op i = Except.error (e i)) (h1 : 1 ≤ maxRetries) :
    (retryWithBackoff op maxRetries baseDelay).1 = Except.error (e (maxRetries - 1)) ∧
    (retryWithBackoff op maxRetries baseDelay).2.1 = maxRetries := by
  have h := retryRun_all_fail op baseDelay maxRetries e 0
      (by intro i hi; simpa using hf i hi) h1
  simpa [retryWithBackoff] using h

/-- Witness for C3: an always-failing operation with `maxRetries = 3` is
invoked exactly 3 times and the last failure is re-raised. -/
theorem spec_c3_witness :
    (retryWithBackoff (fun _ => (Except.error "down" : Except String Nat)) 3 1000).1 =
      Except.error "down" ∧
    (retryWithBackoff (fun _ => (Except.error "down" : Except String Nat)) 3 1000).2.1 = 3 := by
  have h := spec_c3 (fun _ => (Except.error "down" : Except String Nat)) 3 1000
      (fun _ => "down") (fun _ _ => rfl) (by omega)
  simpa using h

/-- C1: if every configured model attempt fails, both formatters return
exactly the fixed fallback draft: variant A with title `🔔 Notification`,
the text clipped to 2000 characters, color 9807270, the fixed footer and a
system timestamp; variant B with title `Notification`, the text clipped to
4096 characters, priority `default` and tag `bell`.  Both formatters are
total Lean functions, so they never raise. -/
theorem spec_c1 (now : Nat) (text : Str)
    (oa : String → AttemptOutcome DiscordEmbed)
    (ob : String → AttemptOutcome NtfyNotification)
    (ha : ∀ m ∈ models, (oa m).isSuccess = false)
    (hb : ∀ m ∈ models, (ob m).isSuccess = false) :
    getDiscordEmbed now text oa =
      { title := "🔔 Notification".toList
        description := text.take 2000
        color := 9807270
        footerText := "Processed via Worker (Fallback)".toList
        timestamp := some now } ∧
    getNtfyNotification text ob =
      { title := .str "Notification".toList
        message := .str (text.take 4096)
        priority := .str "default".toList
        tags := .str "bell".toList } := by
  have h1 := runModels_all_fail oa models ha
  have h2 := runModels_all_fail ob models hb
  constructor
  · simp [getDiscordEmbed, getDiscordEmbedCalls, h1, discordFallback]
  · simp [getNtfyNotification, getNtfyNotificationCalls, h2, ntfyFallback]

/-- Witness for C1: every model attempt rejects; both formatters return
the fallback drafts for the two-character input `hi`. -/
theorem spec_c1_witness :
    getDiscordEmbed 7 "hi".toList (fun _ => AttemptOutcome.retryFailed) =
      { title := "🔔 Notification".toList
        description := "hi".toList
        color := 9807270
        footerText := "Processed via Worker (Fallback)".toList
        timestamp := some 7 } ∧
    getNtfyNotification "hi".toList (fun _ => AttemptOutcome.retryFailed) =
      { title := .str "Notification".toList
        message := .str "hi".toList
        priority := .str "default".toList
        tags := .str "bell".toList } := by
  have h := spec_c1 7 "hi".toList (fun _ => AttemptOutcome.retryFailed)
      (fun _ => AttemptOutcome.retryFailed) (fun _ _ => rfl) (fun _ _ => rfl)
  exact ⟨h.1.trans (by decide), h.2.trans (by decide)⟩

/-- C5: in the ordered model loop, the first model whose attempt yields a
successfully parsed draft causes an immediate return: exactly the models
up to and including it are invoked, and no later model is ever invoked
(in particular, if model 1 succeeds, model 2 is never called). -/
theorem spec_c5 (now : Nat) (text : Str)
    (oracle : String → AttemptOutcome DiscordEmbed)
    (pre post : List String) (m : String) (d : DiscordEmbed)
    (hpre : ∀ x ∈ pre, (oracle x).isSuccess = false)
    (hm : oracle m = .success d) :
    (runModels oracle (pre ++ m :: post)).2 = pre ++ [m] ∧
    (models = pre ++ m :: post →
      (getDiscordEmbedCalls now text oracle).2 = pre ++ [m]) := by
  have h := runModels_first_success oracle m d hm pre post hpre
  constructor
  · rw [h]
  · intro hmod
    simp [getDiscordEmbedCalls, hmod, h]

/-- Witness for C5: an oracle on which the first model succeeds; only the
first model is invoked, the second never. -/
theorem spec_c5_witness :
    (getDiscordEmbedCalls 0 []
        (fun s => if s = "z-ai/glm-4.5-air:free"
          then AttemptOutcome.success (⟨[], [], 0, [], none⟩ : DiscordEmbed)
          else AttemptOutcome.retryFailed)).2 = ["z-ai/glm-4.5-air:free"] := by
  have h := spec_c5 0 []
      (fun s => if s = "z-ai/glm-4.5-air:free"
        then AttemptOutcome.success (⟨[], [], 0, [], none⟩ : DiscordEmbed)
        else AttemptOutcome.retryFailed)
      [] ["arcee-ai/trinity-mini:free"] "z-ai/glm-4.5-air:free" ⟨[], [], 0, [], none⟩
      (fun x hx => absurd hx (List.not_mem_nil x)) (by decide)
  exact h.2 rfl

/-- C8: in variant A every draft returned by the formatter carries the
system-stamped timestamp: a model-produced draft's timestamp is
overwritten with the current time regardless of what the model supplied,
and the fallback draft carries the system time as well. -/
theorem spec_c8 (now : Nat) (text : Str)
    (oracle : String → AttemptOutcome DiscordEmbed) :
    (getDiscordEmbed now text oracle).timestamp = some now := by
  cases h : (runModels oracle models).1 with
  | none => simp [getDiscordEmbed, getDiscordEmbedCalls, h, discordFallback]
  | some d => simp [getDiscordEmbed, getDiscordEmbedCalls, h]

/-- Counterexample to C4 as stated: on this input the pattern trimming
removes exactly 60% of the 20 characters (the SPF pattern eats
`SPF Result:q`, leaving the 8 `z`s), so the trimmed length equals
0.4 × the original length; the code's strict `<` guard does not fire and
the trimmed text — not the original — is returned. -/
theorem spec_c4_counterexample :
    5 * (trimmedCandidate "zzzzzzzzSPF Result:q".toList).length ≤
      2 * ("zzzzzzzzSPF Result:q".toList).length ∧
    trimVerboseContent "zzzzzzzzSPF Result:q".toList ≠ "zzzzzzzzSPF Result:q".toList := by
  decide

/-- C4 (amended): for every text where pattern-based trimming would remove
strictly more than 60% of the input's length (trimmed length < 0.4 × the
original length), `trimVerboseContent` returns the original text
unchanged.  At exactly 60% removal the trimmed result is kept. -/
theorem spec_c4_amended (text : Str)
    (h : 5 * (trimmedCandidate text).length < 2 * text.length) :
    trimVerboseContent text = text := by
  simp [trimVerboseContent, trimVerboseContentWith, trimTry, h]

/-- Witness for the amended C4: the input `SPF Result:` is trimmed to the
empty string (100% removed), and the original is returned unchanged. -/
theorem spec_c4_witness :
    5 * (trimmedCandidate "SPF Result:".toList).length <
      2 * ("SPF Result:".toList).length ∧
    trimVerboseContent "SPF Result:".toList = "SPF Result:".toList := by
  exact ⟨by decide, spec_c4_amended _ (by decide)⟩

/-- C6: any internal failure raised inside `trimVerboseContent`'s try
block is caught and the original input text is returned unchanged, so the
stage never raises; and `trimVerboseContent` is exactly this catch wrapper
applied to the (total) try-block body. -/
theorem spec_c6 (body : Str → Except Unit Str) (text : Str)
    (h : body text = Except.error ()) :
    trimVerboseContentWith body text = text ∧
    trimVerboseContent text = trimVerboseContentWith trimTry text := by
  constructor
  · simp [trimVerboseContentWith, h]
  · rfl

/-- Witness for C6: a body that raises is caught and the original text
comes back. -/
theorem spec_c6_witness :
    trimVerboseContentWith (fun _ => Except.error ()) "boom".toList = "boom".toList := by
  exact (spec_c6 (fun _ => Except.error ()) "boom".toList rfl).1

/-- C9: for every non-empty input, `trimVerboseContent` returns a
non-empty string; and whenever pattern removal plus whitespace collapsing
would leave the empty string, the guards return the original text. -/
theorem spec_c9 (text : Str) (h : text ≠ []) :
    trimVerboseContent text ≠ [] ∧
    (trimmedCandidate text = [] → trimVerboseContent text = text) := by
  by_cases h1 : 5 * (trimmedCandidate text).length < 2 * text.length
  · refine ⟨?_, fun _ => ?_⟩
    · simpa [trimVerboseContent, trimVerboseContentWith, trimTry, h1] using h
    · simp [trimVerboseContent, trimVerboseContentWith, trimTry, h1]
  · by_cases h2 : 0 < (trimmedCandidate text).length
    · refine ⟨?_, fun hnil => ?_⟩
      · simp only [trimVerboseContent, trimVerboseContentWith, trimTry, if_neg h1, if_pos h2]
        intro hnil
        rw [hnil] at h2
        simp at h2
      · rw [hnil] at h2
        simp at h2
    · refine ⟨?_, fun _ => ?_⟩
      · simpa [trimVerboseContent, trimVerboseContentWith, trimTry, h1, h2] using h
      · simp [trimVerboseContent, trimVerboseContentWith, trimTry, h1, h2]

/-- Witness for C9: a one-character input that no pattern touches. -/
theorem spec_c9_witness : trimVerboseContent "q".toList ≠ [] := by
  exact (spec_c9 "q".toList (by decide)).1

/-- C7: if the delivery call fails on all 3 attempts, the handler returns
HTTP 500 with the sink's last reported status code and body text embedded
in the response body; if an attempt succeeds within the retry budget, the
handler returns HTTP 200 with the fixed confirmation body.  Both delivery
variants are covered. -/
theorem spec_c7 (sinkF sinkS : Nat → SinkResp) (k : Nat)
    (hF : ∀ i, i < 3 → (sinkF i).ok = false)
    (hkS : k < 3)
    (hSf : ∀ i, i < k → (sinkS i).ok = false)
    (hSk : (sinkS k).ok = true) :
    discordDeliveryResponse sinkF =
      { status := 500
        body := "Discord error: Discord webhook failed: ".toList ++
          ((Nat.repr (sinkF 2).status).toList ++ (" - ".toList ++ (sinkF 2).body)) } ∧
    ntfyDeliveryResponse sinkF =
      { status := 500
        body := "ntfy error: ntfy failed: ".toList ++
          ((Nat.repr (sinkF 2).status).toList ++ (" - ".toList ++ (sinkF 2).body)) } ∧
    discordDeliveryResponse sinkS = { status := 200, body := "Sent to Discord!".toList } ∧
    ntfyDeliveryResponse sinkS = { status := 200, body := "Sent to ntfy!".toList } := by
  have hdF := retryRun_all_fail (discordDeliverOp sinkF) 1000 3
      (fun i => discordFailMsg (sinkF i)) 0
      (by intro i hi; simp [discordDeliverOp, hF i (by simpa using hi)]) (by omega)
  have hnF := retryRun_all_fail (ntfyDeliverOp sinkF) 1000 3
      (fun i => ntfyFailMsg (sinkF i)) 0
      (by intro i hi; simp [ntfyDeliverOp, hF i (by simpa using hi)]) (by omega)
  have hdS := retryRun_succ_after (discordDeliverOp sinkS) 1000 (sinkS k) k
      (fun i => discordFailMsg (sinkS i)) 0 3
      (by intro i hi; simp [discordDeliverOp, hSf i hi])
      (by simp [discordDeliverOp, hSk]) hkS
  have hnS := retryRun_succ_after (ntfyDeliverOp sinkS) 1000 (sinkS k) k
      (fun i => ntfyFailMsg (sinkS i)) 0 3
      (by intro i hi; simp [ntfyDeliverOp, hSf i hi])
      (by simp [ntfyDeliverOp, hSk]) hkS
  refine ⟨?_, ?_, ?_, ?_⟩
  · unfold discordDeliveryResponse retryWithBackoff
    rw [hdF.1]
    simp only [discordFailMsg]
    rw [← List.append_assoc]
    rfl
  · unfold ntfyDeliveryResponse retryWithBackoff
    rw [hnF.1]
    simp only [ntfyFailMsg]
    rw [← List.append_assoc]
    rfl
  · unfold discordDeliveryResponse retryWithBackoff
    rw [show (retryRun (discordDeliverOp sinkS) 1000 0 3).1 = Except.ok (some (sinkS k)) from
      by rw [hdS]]
  · unfold ntfyDeliveryResponse retryWithBackoff
    rw [show (retryRun (ntfyDeliverOp sinkS) 1000 0 3).1 = Except.ok (some (sinkS k)) from
      by rw [hnS]]

/-- Witness for C7: a sink that always answers 503 `down` yields the 500
response embedding `503 - down`; an immediately successful sink yields the
fixed 200 confirmation. -/
theorem spec_c7_witness :
    discordDeliveryResponse (fun _ => ⟨false, 503, "down".toList⟩) =
      { status := 500, body := "Discord error: Discord webhook failed: 503 - down".toList } ∧
    ntfyDeliveryResponse (fun _ => ⟨true, 200, []⟩) =
      { status := 200, body := "Sent to ntfy!".toList } := by
  have h := spec_c7 (fun _ => ⟨false, 503, "down".toList⟩) (fun _ => ⟨true, 200, []⟩) 0
      (fun _ _ => rfl) (by omega) (fun i hi => absurd hi (by omega)) rfl
  exact ⟨h.1.trans (by decide), h.2.2.2⟩

/-- C10: in variant B delivery, when the draft's `message` is absent,
`null` or the empty string, the body POSTed to the ntfy topic is the
processed payload clipped to 4096 characters; otherwise it is exactly the
draft's `message`. -/
theorem spec_c10 (n : NtfyNotification) (p : Str) :
    ((n.message = JsStr.undef ∨ n.message = JsStr.null ∨ n.message = JsStr.str []) →
      ntfyRequestBody n p = p.take 4096) ∧
    (∀ s, s ≠ [] → n.message = JsStr.str s → ntfyRequestBody n p = s) := by
  constructor
  · intro h
    rcases h with h | h | h <;> simp [ntfyRequestBody, jsOr, h]
  · intro s hs hm
    simp [ntfyRequestBody, jsOr, hm, hs]

/-- Witness for C10: a draft whose `message` is `null` falls back to the
processed payload. -/
theorem spec_c10_witness :
    ntfyRequestBody
        { title := JsStr.undef, message := JsStr.null
          priority := JsStr.undef, tags := JsStr.undef } "abc".toList = "abc".toList := by
  have h := (spec_c10
      { title := JsStr.undef, message := JsStr.null
        priority := JsStr.undef, tags := JsStr.undef } "abc".toList).1
      (Or.inr (Or.inl rfl))
  exact h.trans (by decide)
